import Mathlib

/-!
Shallow embedding of `src/07-LM/lang_model.C` (n-gram language model with
Witten-Bell smoothing, from an ASR course lab).

Modelling conventions:
* Token ids are `Int` (the C++ code stores `vector<int>`), n-grams are `List Int`.
* The `NGramCounter` class is not part of the given source file; it is
  modelled from the spec (section 4.2) as a total map `List Int → Nat` with
  zero-default lookup and pointwise increment.
* C++ `double` is modelled as `ℚ`; IEEE rounding is out of scope.  Division
  is Lean's total division (`x / 0 = 0`); where the C++ code can actually
  divide by zero (it can), the divisors are also collected explicitly by
  `wb_divisors` so that division-by-zero behaviour is visible.
* `p[i] = m_predCounts.get_count(..) / m_predCounts.get_count(..)` in the
  source is C++ *integer* division of two `int` counts; it is embedded as
  `Nat` division, cast to `ℚ` afterwards.
* The local variables `acc_histCounts` and `acc_histOnePlusCounts` in
  `get_prob_witten_bell` are read before ever being written (they are
  uninitialized `double`s accumulated with `+=`).  Their initial contents
  are modelled as explicit parameters `g1 g2 : ℚ` of the embedded function.
* `vector<int> c_iter(ngram.begin()+i, ngram.end())` is embedded as
  `ngram.drop i`; when `i > ngram.length` the C++ iterator arithmetic is
  out of bounds (undefined behaviour) while `List.drop` clamps to `[]`.
  The offsets actually formed are recorded separately by
  `estimator_offsets` so the bounds question can be stated exactly.
* The out-of-bounds write/read of `lambda[m_n]` (the VLA `lambda` has size
  `m_n`) is modelled as if the array had size `m_n + 1`: the value read back
  is the value the expression wrote.
-/

namespace ASRLM

/-- Modelled from the spec (§4.2 Counter / `NGramCounter`, which is declared
in `lang_model.H`, not in the given source): a mapping from an ordered
sequence of token ids to a count, returning 0 for sequences never
incremented. -/
def Counter : Type := List Int → Nat

/-- Modelled from the spec: `increment(sequence)` bumps the count of exactly
this key. -/
def incr_count (c : Counter) (k : List Int) : Counter :=
  fun k2 => if k2 = k then c k2 + 1 else c k2

/-- Modelled from the spec: `count(sequence)` returns the stored count, 0 by
default. -/
def get_count (c : Counter) (k : List Int) : Nat := c k

/-- The three counters owned by `LangModel`: `m_predCounts`, `m_histCounts`,
`m_histOnePlusCounts` (lang_model.C, constructor and fields). -/
structure LMState where
  predCounts : Counter
  histCounts : Counter
  histOnePlusCounts : Counter

/-- Counters start empty at construction (`LangModel::LangModel`). -/
def initState : LMState :=
  { predCounts := fun _ => 0
    histCounts := fun _ => 0
    histOnePlusCounts := fun _ => 0 }

/-- One iteration of the inner loop body of
`LangModel::count_sentence_ngrams` (lang_model.C lines 98–111) at outer
position `it` and inner index `i`:
`cut1 = [it, min(it+i, end))` is counted in `predCounts`; if
`last1 + 1 < end` (i.e. `it + i + 1 < length`) it is also counted in
`histCounts`, and when additionally `i > 0` and the just-incremented pred
count is `< 2`, `cut2 = [it, it+i-1)` is counted in `histOnePlusCounts`. -/
def countStep (w : List Int) (st : LMState) (it i : Nat) : LMState :=
  let cut1 := (w.drop it).take i
  let pred1 := incr_count st.predCounts cut1
  if it + i + 1 < w.length then
    let hist1 := incr_count st.histCounts cut1
    if 0 < i ∧ get_count pred1 cut1 < 2 then
      { predCounts := pred1
        histCounts := hist1
        histOnePlusCounts := incr_count st.histOnePlusCounts ((w.drop it).take (i - 1)) }
    else
      { predCounts := pred1, histCounts := hist1, histOnePlusCounts := st.histOnePlusCounts }
  else
    { predCounts := pred1, histCounts := st.histCounts, histOnePlusCounts := st.histOnePlusCounts }

/-- The inner loop `for (int i = 0; i <= m_n; i++)` of
`count_sentence_ngrams` at one iterator position `it`. -/
def countPos (n : Nat) (w : List Int) (st : LMState) (it : Nat) : LMState :=
  (List.range (n + 1)).foldl (fun s i => countStep w s it i) st

/-- `LangModel::count_sentence_ngrams` (lang_model.C lines 93–112): the outer
loop runs the iterator `it` over every position of the padded sentence. -/
def count_sentence_ngrams (n : Nat) (st : LMState) (w : List Int) : LMState :=
  (List.range w.length).foldl (countPos n w) st

/-- Modelled from the spec (§4.3; also the comment block at lang_model.C
lines 63–70): `convert_words_to_indices` pads a sentence with `n - 1`
begin-of-sentence markers in front and one end-of-sentence marker behind.
(`convert_words_to_indices` itself is not in the given source file.) -/
def pad_sentence (n : Nat) (bos eos : Int) (s : List Int) : List Int :=
  List.replicate (n - 1) bos ++ s ++ [eos]

/-- The training loop of the `LangModel` constructor (lang_model.C lines
25–33): every corpus sentence is padded and folded into the counters, in
file order, starting from empty counters. -/
def train (n : Nat) (bos eos : Int) (corpus : List (List Int)) : LMState :=
  corpus.foldl (fun st s => count_sentence_ngrams n st (pad_sentence n bos eos s)) initState

/-- The accumulator loop of `get_prob_witten_bell` (lang_model.C lines
152–157): sums `m_histCounts` over the single-token sequences `[k]`,
`k = 0 .. vocSize - 1`, on top of the uninitialized initial contents `g`. -/
def acc_hist (st : LMState) (vocSize : Nat) (g : ℚ) : ℚ :=
  g + ((List.range vocSize).map (fun k => (get_count st.histCounts [(k : Int)] : ℚ))).sum

/-- Same loop for `m_histOnePlusCounts`. -/
def acc_one (st : LMState) (vocSize : Nat) (g : ℚ) : ℚ :=
  g + ((List.range vocSize).map (fun k => (get_count st.histOnePlusCounts [(k : Int)] : ℚ))).sum

/-- `p[i]` as assigned by the loop at lang_model.C lines 164–176: `1/vocSize`
when `i + 1 == m_n`, otherwise the C++ *integer* division
`predCounts(ngram[i..]) / predCounts(ngram[i+1..])`. -/
def wb_p (st : LMState) (n vocSize : Nat) (ngram : List Int) (i : Nat) : ℚ :=
  if i + 1 = n then (1 : ℚ) / (vocSize : ℚ)
  else ((get_count st.predCounts (ngram.drop i) / get_count st.predCounts (ngram.drop (i + 1)) : Nat) : ℚ)

/-- `lambda[i]` as assigned by the same loop: `accH / (accH + accU)` when
`i + 1 == m_n`, otherwise `hist(ngram[i..]) / (hist + histOnePlus)` in
floating point. -/
def wb_lambda (st : LMState) (n : Nat) (accH accU : ℚ) (ngram : List Int) (i : Nat) : ℚ :=
  if i + 1 = n then accH / (accH + accU)
  else
    ((get_count st.histCounts (ngram.drop i) : ℚ)) /
      ((get_count st.histCounts (ngram.drop i) : ℚ) + (get_count st.histOnePlusCounts (ngram.drop i) : ℚ))

/-- `LangModel::get_prob_witten_bell` (lang_model.C lines 116–189).
`symSize` is `m_symTable->size()`, `n` is `m_n`, `g1`/`g2` are the initial
contents of the uninitialized accumulators.  `retProb` starts at `1.0` and
the final loop `for (i = m_n; i > 0; i--)` adds
`lambda[i]*p[i] + (1-lambda[i])*p[i-1]` for each `i = m_n .. 1`. -/
def get_prob_witten_bell (symSize n : Nat) (g1 g2 : ℚ) (st : LMState) (ngram : List Int) : ℚ :=
  let vocSize := symSize - 1
  let accH := acc_hist st vocSize g1
  let accU := acc_one st vocSize g2
  1 + ((List.range n).map (fun j =>
    let i := n - j
    wb_lambda st n accH accU ngram i * wb_p st n vocSize ngram i +
      (1 - wb_lambda st n accH accU ngram i) * wb_p st n vocSize ngram (i - 1))).sum

/-- `LangModel::get_prob` (lang_model.C lines 191–195): throws
`runtime_error` when the n-gram length is `< 1` or `> m_n`, otherwise
delegates to `get_prob_witten_bell`. -/
def get_prob (symSize n : Nat) (g1 g2 : ℚ) (st : LMState) (ngram : List Int) : Except String ℚ :=
  if ngram.length < 1 ∨ n < ngram.length then Except.error "Invalid n-gram size."
  else Except.ok (get_prob_witten_bell symSize n g1 g2 st ngram)

/-- Every divisor evaluated while `get_prob_witten_bell` runs, in program
order: `vocSize` (for `prob_eps` at line 147 and for `1.0/vocSize` at line
167), and per loop iteration `i = 0 .. m_n`: at `i + 1 == m_n` the divisor
`accH + accU` (line 168), otherwise the integer divisor
`predCounts(ngram[i+1..])` (line 172) and the floating divisor
`hist + histOnePlus` (line 173). -/
def wb_divisors (symSize n : Nat) (g1 g2 : ℚ) (st : LMState) (ngram : List Int) : List ℚ :=
  let vocSize := symSize - 1
  let accH := acc_hist st vocSize g1
  let accU := acc_one st vocSize g2
  (vocSize : ℚ) :: (List.range (n + 1)).flatMap (fun i =>
    if i + 1 = n then [accH + accU]
    else
      [((get_count st.predCounts (ngram.drop (i + 1)) : ℚ)),
        ((get_count st.histCounts (ngram.drop i) : ℚ) + (get_count st.histOnePlusCounts (ngram.drop i) : ℚ))])

/-- The iterator offsets into `ngram` from which `get_prob_witten_bell`
constructs subsequences (lang_model.C lines 163–176): for every
`i = 0 .. m_n` the offset `i` (`c_iter`, line 165), and for every such `i`
with `i + 1 ≠ m_n` additionally the offset `i + 1` (`c_iter1`, line 171). -/
def estimator_offsets (n : Nat) : List Nat :=
  (List.range (n + 1)).flatMap (fun i => if i + 1 = n then [i] else [i, i + 1])

/-- The Witten-Bell discount weight as the spec states it (§4.4):
`λ(h) = C(h) / (C(h) + U(h))` when the denominator is positive, 0 otherwise
(in particular 0 when `C(h) = 0`). -/
def spec_lambda (st : LMState) (h : List Int) : ℚ :=
  let C : ℚ := get_count st.histCounts h
  let U : ℚ := get_count st.histOnePlusCounts h
  if C + U = 0 then 0 else C / (C + U)

/-- The maximum-likelihood term as the spec states it (§4.4), defined as 0
(zero weight) when `C(h) = 0`. -/
def spec_pml (st : LMState) (h : List Int) (w : Int) : ℚ :=
  let C : ℚ := get_count st.histCounts h
  if C = 0 then 0 else (get_count st.predCounts (h ++ [w]) : ℚ) / C

/-- The recursive Witten-Bell interpolation as the spec states it (§4.4):
`P(w|h) = λ(h)·P_ML(w|h) + (1-λ(h))·P(w|h')` with `h'` dropping the oldest
(leftmost) token, and base case interpolating with the uniform `1/V`. -/
def spec_prob (st : LMState) (V : ℚ) : List Int → Int → ℚ
  | [], w => spec_lambda st [] * spec_pml st [] w + (1 - spec_lambda st []) * (1 / V)
  | a :: h2, w =>
      spec_lambda st (a :: h2) * spec_pml st (a :: h2) w +
        (1 - spec_lambda st (a :: h2)) * spec_prob st V h2 w

/-- The concrete scenario of spec §8: vocabulary `{<s>, </s>, <UNK>, the,
cat, sat}` with ids chosen as `<s> = 1`, `</s> = 2`, `<UNK> = 3`, `the = 4`,
`cat = 5`, `sat = 6` (id 0 is the epsilon placeholder the symbol table
holds, excluded from `vocSize`), order `N = 2`, single sentence
"the cat sat". -/
def demoSentence : List Int := [4, 5, 6]

/-- The model trained on the single-sentence demo corpus with `n = 2`,
`bos = 1`, `eos = 2`; the padded sentence is `[1, 4, 5, 6, 2]`. -/
def demoState : LMState := train 2 1 2 [demoSentence]

/-- Sum of `predCounts(h ++ [w])` over every symbol id `w` of the table
(ids `0 .. symSize - 1`): the continuation mass of history `h`. -/
def contSum (st : LMState) (symSize : Nat) (h : List Int) : Nat :=
  ((List.range symSize).map (fun k => get_count st.predCounts (h ++ [(k : Int)]))).sum

end ASRLM

namespace ASRLM

/-- Unfolding of the estimator at order `n = 2`: `retProb` is `1` plus the
final-loop terms for `i = 2` and `i = 1`. -/
lemma wb2 (symSize : Nat) (g1 g2 : ℚ) (st : LMState) (ng : List Int) :
    get_prob_witten_bell symSize 2 g1 g2 st ng =
      1 + ((wb_lambda st 2 (acc_hist st (symSize - 1) g1) (acc_one st (symSize - 1) g2) ng 2 *
            wb_p st 2 (symSize - 1) ng 2 +
          (1 - wb_lambda st 2 (acc_hist st (symSize - 1) g1) (acc_one st (symSize - 1) g2) ng 2) *
            wb_p st 2 (symSize - 1) ng 1) +
        (wb_lambda st 2 (acc_hist st (symSize - 1) g1) (acc_one st (symSize - 1) g2) ng 1 *
            wb_p st 2 (symSize - 1) ng 1 +
          (1 - wb_lambda st 2 (acc_hist st (symSize - 1) g1) (acc_one st (symSize - 1) g2) ng 1) *
            wb_p st 2 (symSize - 1) ng 0)) := by
  have hr : List.range 2 = [0, 1] := rfl
  norm_num [get_prob_witten_bell, hr]

/-- `acc_hist` on the demo model: the single-token history counts over ids
0..5 sum to 3. -/
lemma demo_acc_hist (g : ℚ) : acc_hist demoState 6 g = g + 3 := by
  have hr : List.range 6 = [0, 1, 2, 3, 4, 5] := rfl
  have h0 : get_count demoState.histCounts [(0 : Int)] = 0 := by decide
  have h1 : get_count demoState.histCounts [(1 : Int)] = 1 := by decide
  have h2 : get_count demoState.histCounts [(2 : Int)] = 0 := by decide
  have h3 : get_count demoState.histCounts [(3 : Int)] = 0 := by decide
  have h4 : get_count demoState.histCounts [(4 : Int)] = 1 := by decide
  have h5 : get_count demoState.histCounts [(5 : Int)] = 1 := by decide
  simp [acc_hist, hr, h0, h1, h2, h3, h4, h5]
  norm_num

/-- `acc_one` on the demo model: the single-token 1+ counts over ids 0..5
sum to 2. -/
lemma demo_acc_one (g : ℚ) : acc_one demoState 6 g = g + 2 := by
  have hr : List.range 6 = [0, 1, 2, 3, 4, 5] := rfl
  have h0 : get_count demoState.histOnePlusCounts [(0 : Int)] = 0 := by decide
  have h1 : get_count demoState.histOnePlusCounts [(1 : Int)] = 1 := by decide
  have h2 : get_count demoState.histOnePlusCounts [(2 : Int)] = 0 := by decide
  have h3 : get_count demoState.histOnePlusCounts [(3 : Int)] = 0 := by decide
  have h4 : get_count demoState.histOnePlusCounts [(4 : Int)] = 1 := by decide
  have h5 : get_count demoState.histOnePlusCounts [(5 : Int)] = 0 := by decide
  simp [acc_one, hr, h0, h1, h2, h3, h4, h5]
  norm_num

/-- `p[2]` on the demo model and query `[cat, sat]`: the integer division
`predCounts([]) / predCounts([]) = 5 / 5 = 1`. -/
lemma demo_p2 : wb_p demoState 2 6 [5, 6] 2 = 1 := by
  have h : (get_count demoState.predCounts [] / get_count demoState.predCounts [] : Nat) = 1 := by
    decide
  simp [wb_p, h]

/-- `p[1]` is the uniform `1 / vocSize` branch. -/
lemma wb_p1_uniform (st : LMState) (ng : List Int) : wb_p st 2 6 ng 1 = 1 / 6 := by
  simp [wb_p]

/-- `p[0]` on the demo model and query `[cat, sat]`: the integer division
`predCounts([5,6]) / predCounts([6]) = 1 / 1 = 1`. -/
lemma demo_p0 : wb_p demoState 2 6 [5, 6] 0 = 1 := by
  have h : (get_count demoState.predCounts [5, 6] / get_count demoState.predCounts [6] : Nat) = 1 := by
    decide
  simp [wb_p, h]

/-- `lambda[2]` on the demo model: `histCounts([]) / (histCounts([]) +
histOnePlusCounts([])) = 4 / 7` (the out-of-bounds slot of the VLA). -/
lemma demo_lam2 (aH aU : ℚ) : wb_lambda demoState 2 aH aU [5, 6] 2 = 4 / 7 := by
  have h1 : get_count demoState.histCounts [] = 4 := by decide
  have h2 : get_count demoState.histOnePlusCounts [] = 3 := by decide
  simp [wb_lambda, h1, h2]
  norm_num

/-- `lambda[1]` is the accumulator branch. -/
lemma wb_lam1_acc (st : LMState) (aH aU : ℚ) (ng : List Int) :
    wb_lambda st 2 aH aU ng 1 = aH / (aH + aU) := by
  simp [wb_lambda]

/-- The value the embedded estimator returns on the demo model for the
accepted bigram `[cat, sat]`, with the uninitialized accumulators taken
as 0. -/
lemma demo_value : get_prob_witten_bell 7 2 0 0 demoState [5, 6] = 15 / 7 := by
  have h76 : (7 : Nat) - 1 = 6 := rfl
  rw [wb2, h76, demo_acc_hist, demo_acc_one, demo_lam2, wb_lam1_acc, demo_p2, wb_p1_uniform,
    demo_p0]
  norm_num

/-- Same query when the uninitialized accumulator `acc_histCounts` happens
to start at 1 instead of 0. -/
lemma demo_value_g1 : get_prob_witten_bell 7 2 1 0 demoState [5, 6] = 263 / 126 := by
  have h76 : (7 : Nat) - 1 = 6 := rfl
  rw [wb2, h76, demo_acc_hist, demo_acc_one, demo_lam2, wb_lam1_acc, demo_p2, wb_p1_uniform,
    demo_p0]
  norm_num

/-- Training on the empty corpus is the empty counter state. -/
lemma train_empty : train 2 1 2 [] = initState := rfl

/-- `acc_hist` on the empty model stays at the uninitialized contents. -/
lemma init_acc_hist (g : ℚ) : acc_hist initState 6 g = g := by
  have hr : List.range 6 = [0, 1, 2, 3, 4, 5] := rfl
  simp [acc_hist, hr, get_count, initState]

/-- `acc_one` on the empty model stays at the uninitialized contents. -/
lemma init_acc_one (g : ℚ) : acc_one initState 6 g = g := by
  have hr : List.range 6 = [0, 1, 2, 3, 4, 5] := rfl
  simp [acc_one, hr, get_count, initState]

/-- `p[2]` on the empty model: integer division `0 / 0`, i.e. 0 in the
total-division model (the running program divides by zero here). -/
lemma init_p2 : wb_p initState 2 6 [5, 6] 2 = 0 := by
  simp [wb_p, get_count, initState]

/-- `p[0]` on the empty model: again the integer division `0 / 0`. -/
lemma init_p0 : wb_p initState 2 6 [5, 6] 0 = 0 := by
  simp [wb_p, get_count, initState]

/-- `lambda[2]` on the empty model: `0 / (0 + 0) = 0` in the total-division
model (the running program computes `0.0 / 0.0`, a NaN). -/
lemma init_lam2 (aH aU : ℚ) : wb_lambda initState 2 aH aU [5, 6] 2 = 0 := by
  simp [wb_lambda, get_count, initState]

/-- The value the embedded estimator returns on the untrained (empty-corpus)
model: `7/6`, not the uniform `1/6`. -/
lemma init_value : get_prob_witten_bell 7 2 0 0 initState [5, 6] = 7 / 6 := by
  have h76 : (7 : Nat) - 1 = 6 := rfl
  rw [wb2, h76, init_acc_hist, init_acc_one, init_lam2, wb_lam1_acc, init_p2, wb_p1_uniform,
    init_p0]
  norm_num

/-- The spec's discount weight for the demo history `[cat]`:
`λ([cat]) = 1 / (1 + 0) = 1`. -/
lemma demo_spec_lambda_cat : spec_lambda demoState [5] = 1 := by
  have h1 : get_count demoState.histCounts [5] = 1 := by decide
  have h2 : get_count demoState.histOnePlusCounts [5] = 0 := by decide
  simp [spec_lambda, h1, h2]

/-- The spec's ML estimate for the demo pair `(h, w) = ([cat], sat)`:
`predCounts([cat, sat]) / histCounts([cat]) = 1 / 1 = 1`. -/
lemma demo_spec_pml_cat : spec_pml demoState [5] 6 = 1 := by
  have h1 : get_count demoState.histCounts [5] = 1 := by decide
  have h2 : get_count demoState.predCounts [5, 6] = 1 := by decide
  simp [spec_pml, h1, h2]

/-- The spec's Witten-Bell recursion on the demo model gives
`P(sat | [cat]) = 1`. -/
lemma demo_spec_value : spec_prob demoState 6 [5] 6 = 1 := by
  simp [spec_prob, demo_spec_lambda_cat, demo_spec_pml_cat]

end ASRLM

namespace ASRLM

/-- Claim C1: the claim states that for every trained model and accepted
n-gram the returned probability lies in (0, 1].  It does not: `retProb` is
initialized to `1.0` and only ever added to, so on the trained demo model
the accepted bigram `[cat, sat]` yields `15/7 > 1`. -/
theorem claim_C1_range_violated :
    get_prob 7 2 0 0 demoState [5, 6] = Except.ok (get_prob_witten_bell 7 2 0 0 demoState [5, 6]) ∧
      get_prob_witten_bell 7 2 0 0 demoState [5, 6] = 15 / 7 ∧ ¬ ((15 : ℚ) / 7 ≤ 1) := by
  refine ⟨rfl, demo_value, by norm_num⟩

/-- Claim C2: the claim states that `get_prob` computes the Witten-Bell
recursion of the spec.  On the trained demo model the spec recursion gives
`P(sat | [cat]) = 1` (λ([cat]) = 1, P_ML = 1), while the code returns
`15/7`. -/
theorem claim_C2_recursion_violated :
    spec_prob demoState 6 [5] 6 = 1 ∧
      get_prob_witten_bell 7 2 0 0 demoState [5, 6] ≠ spec_prob demoState 6 [5] 6 := by
  refine ⟨demo_spec_value, ?_⟩
  rw [demo_value, demo_spec_value]
  norm_num

/-- Claim C3: the claim states that each (h, w) observation increments
`predCounts(h ++ [w])` once, and `histOnePlusCounts(h)` exactly when the
pair was new.  On the padded demo sentence `[1, 4, 5, 6, 2]` the code
increments `predCounts([</s>])` twice (the clamped subsequence at the final
position is re-counted at `i = 2`), and never increments
`histOnePlusCounts([cat])` even though `(cat, sat)` is a new observation
(the `last1 + 1 < end` guard skips sentence-final continuations). -/
theorem claim_C3_counting_violated :
    get_count (count_sentence_ngrams 2 initState [1, 4, 5, 6, 2]).predCounts [2] = 2 ∧
      get_count (count_sentence_ngrams 2 initState [1, 4, 5, 6, 2]).histOnePlusCounts [5] = 0 := by
  constructor
  · decide
  · decide

/-- Claim C4: the claim states flow conservation
`histCounts(h) = Σ_w predCounts(h ++ [w])`.  After training on the demo
corpus the empty history has `histCounts([]) = 4` but its continuation sum
is 6. -/
theorem claim_C4_flow_violated :
    get_count demoState.histCounts [] = 4 ∧ contSum demoState 7 [] = 6 ∧
      contSum demoState 7 [] ≠ get_count demoState.histCounts [] := by
  refine ⟨by decide, by decide, by decide⟩

/-- Claim C5 counterexample: the claim asserts `histCounts([]) = 5` and
`histOnePlusCounts([cat]) = 1` after training on "the cat sat" with N = 2;
the code produces 4 and 0. -/
theorem claim_C5_scenario_counterexample :
    ¬ (get_count demoState.histCounts [] = 5 ∧
        get_count demoState.histOnePlusCounts [5] = 1) := by
  decide

/-- Claim C5 (amended): the values the code actually produces on the demo
scenario: the four bigram predCounts are each 1, `histCounts([]) = 4`,
`histCounts([cat]) = 1`, `histOnePlusCounts([cat]) = 0` so `λ([cat]) = 1`
under the spec's formula, and (with the uninitialized accumulators taken as
0 and total division) `get_probability([cat, sat]) = 15/7`. -/
theorem claim_C5_scenario_actual :
    get_count demoState.predCounts [1, 4] = 1 ∧
      get_count demoState.predCounts [4, 5] = 1 ∧
      get_count demoState.predCounts [5, 6] = 1 ∧
      get_count demoState.predCounts [6, 2] = 1 ∧
      get_count demoState.histCounts [] = 4 ∧
      get_count demoState.histCounts [5] = 1 ∧
      get_count demoState.histOnePlusCounts [5] = 0 ∧
      spec_lambda demoState [5] = 1 ∧
      get_prob_witten_bell 7 2 0 0 demoState [5, 6] = 15 / 7 := by
  refine ⟨by decide, by decide, by decide, by decide, by decide, by decide, by decide,
    demo_spec_lambda_cat, demo_value⟩

/-- Claim C6: the claim states that no division in the estimator has a zero
divisor.  On the model trained on an empty corpus (a trained model) and the
accepted bigram `[cat, sat]`, the integer division at line 172 divides by
`predCounts([sat]) = 0`: 0 is among the evaluated divisors. -/
theorem claim_C6_zero_divisor :
    (0 : ℚ) ∈ wb_divisors 7 2 0 0 (train 2 1 2 []) [5, 6] := by
  decide

/-- Claim C7: the claim states that after training on an empty corpus all
counters are zero (true) and every accepted query returns exactly
`1/V = 1/6` (false: under total division with zero-initialized accumulators
the code returns `7/6`; the real code performs an integer division by
zero). -/
theorem claim_C7_empty_corpus :
    (∀ k : List Int,
        get_count (train 2 1 2 []).predCounts k = 0 ∧
          get_count (train 2 1 2 []).histCounts k = 0 ∧
          get_count (train 2 1 2 []).histOnePlusCounts k = 0) ∧
      get_prob_witten_bell 7 2 0 0 (train 2 1 2 []) [5, 6] = 7 / 6 ∧
      (7 : ℚ) / 6 ≠ 1 / 6 := by
  refine ⟨fun k => ⟨rfl, rfl, rfl⟩, ?_, by norm_num⟩
  rw [train_empty, init_value]

/-- Claim C8: `get_prob` reports the invalid-argument error exactly when the
n-gram length is 0 or exceeds N; the function is read-only (it is a `const`
method embedded as a pure function), so the model state is unchanged. -/
theorem claim_C8_error_iff (symSize n : Nat) (g1 g2 : ℚ) (st : LMState) (ngram : List Int) :
    get_prob symSize n g1 g2 st ngram = Except.error "Invalid n-gram size."
      ↔ (ngram.length = 0 ∨ n < ngram.length) := by
  unfold get_prob
  split
  next h =>
    constructor
    · intro _
      omega
    · intro _
      rfl
  next h =>
    constructor
    · intro hc
      exact absurd hc (by simp)
    · intro hc
      exact absurd (by omega : ngram.length < 1 ∨ n < ngram.length) h

/-- Claim C9: the claim states training and querying are deterministic
across runs.  `get_prob_witten_bell` reads the uninitialized accumulator
`acc_histCounts` (modelled by the parameter `g1`): two runs over the
identical corpus and identical counters whose uninitialized stack contents
differ (0 vs 1) return different probabilities (15/7 vs 263/126). -/
theorem claim_C9_nondeterministic :
    get_prob_witten_bell 7 2 0 0 demoState [5, 6] ≠
      get_prob_witten_bell 7 2 1 0 demoState [5, 6] := by
  rw [demo_value, demo_value_g1]
  norm_num

/-- Claim C10: the claim states every subsequence offset the estimator forms
stays within the n-gram's bounds.  For N = 2 the estimator forms the offset
`i + 1 = 3` (iteration `i = m_n` of the loop at lines 164–176), which
exceeds the length of the accepted maximal-length n-gram `[cat, sat]`. -/
theorem claim_C10_offset_out_of_bounds :
    3 ∈ estimator_offsets 2 ∧ ([5, 6] : List Int).length < 3 := by
  constructor
  · decide
  · decide

end ASRLM
